import Mathlib

/-!
Shallow embedding of the task-nagger bot (src/bot.py) and proofs about it.

Modelling conventions:
* A wall-clock instant (`datetime.now(TZ)`) is a calendar day ordinal (`Int`)
  plus a time of day in microseconds since midnight (Python `datetime.time`
  resolution); comparing `datetime.time` values is comparing those counts.
* ISO date strings (`date.isoformat()`) are abstracted by the day ordinal,
  which is faithful because `isoformat` is injective on dates.
* Python dicts keyed by strings are association lists with dict semantics:
  assignment updates the value in place at the key's first occurrence or
  appends a fresh pair, preserving insertion order exactly as CPython does.
* Network sends (`tg_send_message`) are collected into a `sent` list; the
  persisted blobs are the corresponding fields of the final record.
-/

namespace TaskNagger

/-- Time of day in microseconds since midnight. -/
abbrev TimeOfDay := Nat

/-- `START_TIME = time(19, 0)`, 7:00 PM. -/
def START_TIME : TimeOfDay := 19 * 3600 * 1000000

/-- `CUTOFF_TIME = time(2, 0)`, 2:00 AM. -/
def CUTOFF_TIME : TimeOfDay := 2 * 3600 * 1000000

/-- A wall-clock instant: calendar date (day ordinal) plus time of day. -/
structure DateTime where
  day : Int
  tod : TimeOfDay
deriving DecidableEq

/-- `compute_target_date`: after midnight until the cutoff, still targeting
yesterday. -/
def compute_target_date (now : DateTime) : Int :=
  if now.tod ≤ CUTOFF_TIME then now.day - 1 else now.day

/-- `in_reminder_window`: the window crosses midnight, (>= 7 PM) or (<= 2 AM). -/
def in_reminder_window (now : DateTime) : Bool :=
  (decide (START_TIME ≤ now.tod)) || (decide (now.tod ≤ CUTOFF_TIME))

/-- One entry of the tasks config: `{"key": ..., "label": ...}`. -/
structure TaskDef where
  key : String
  label : String
deriving DecidableEq

/-- The tasks config blob: `{"default": ..., "tasks": [...]}`. -/
structure TasksConfig where
  default : Option String
  tasks : List TaskDef
deriving DecidableEq

/-- The `done` map of the state blob: task key -> last-completed date. -/
abbrev Ledger := List (String × Int)

/-- Python `s.strip()`: drop whitespace from both ends (structurally over the
character list, so that proofs can evaluate it). -/
def pyStrip (s : String) : String :=
  ⟨((s.data.dropWhile Char.isWhitespace).reverse.dropWhile Char.isWhitespace).reverse⟩

/-- Python `s.lower()` (ASCII case folding, as in every string this program
compares). -/
def pyLower (s : String) : String :=
  ⟨s.data.map Char.toLower⟩

/-- Python `s.startswith(pre)`. -/
def pyStartswith (s pre : String) : Bool :=
  pre.data.isPrefixOf s.data

/-- Python `s[:n]`. -/
def pyTake (s : String) (n : Nat) : String :=
  ⟨s.data.take n⟩

/-- Python `len(s)`. -/
def pyLen (s : String) : Nat :=
  s.data.length

/-- Python `sep.join(xs)`. -/
def pyJoin (sep : String) : List String → String
  | [] => ""
  | x :: xs => xs.foldl (fun acc y => acc ++ sep ++ y) x

/-- Python dict assignment `m[k] = v`: update in place if present, else append. -/
def pyDictSet {α : Type} (m : List (String × α)) (k : String) (v : α) :
    List (String × α) :=
  if m.any (fun p => p.1 == k) then
    m.map (fun p => if p.1 == k then (k, v) else p)
  else m ++ [(k, v)]

/-- Python `m.get(k)`. -/
def pyDictGet {α : Type} (m : List (String × α)) (k : String) : Option α :=
  (m.find? (fun p => p.1 == k)).map (fun p => p.2)

/-- Python `m.pop(k, None)` (ignoring the returned value). -/
def pyDictPop {α : Type} (m : List (String × α)) (k : String) :
    List (String × α) :=
  m.filter (fun p => p.1 != k)

/-- `task_map(cfg)`: the key -> label dict built from the task list. -/
def task_map (cfg : TasksConfig) : List (String × String) :=
  cfg.tasks.foldl (fun m t => pyDictSet m t.key t.label) []

/-- `get_pending(cfg, done_map, target_date)`: pairs of `task_map` whose ledger
entry differs from the target date, in dict (= insertion) order. -/
def get_pending (cfg : TasksConfig) (done_map : Ledger) (target_date : Int) :
    List (String × String) :=
  (task_map cfg).filter (fun p => pyDictGet done_map p.1 != some target_date)

/-- `format_tasks(cfg)`. -/
def format_tasks (cfg : TasksConfig) : String :=
  let lines := cfg.tasks.map (fun t =>
    "- " ++ t.key ++ ": " ++ t.label ++
      (if cfg.default == some t.key then " (default)" else ""))
  if lines.isEmpty then "(no tasks yet)" else pyJoin "\n" lines

/-- A character allowed by `KEY_RE = ^[a-z0-9_-]{1,32}$`. -/
def keyChar (c : Char) : Bool :=
  ('a' ≤ c && c ≤ 'z') || ('0' ≤ c && c ≤ '9') || c == '_' || c == '-'

/-- `valid_key(key)`: full match against `KEY_RE`. -/
def valid_key (key : String) : Bool :=
  (decide (1 ≤ pyLen key)) && (decide (pyLen key ≤ 32)) && key.data.all keyChar

/-- `normalize_label(label)`: strip, truncate to 80 characters. -/
def normalize_label (label : String) : String :=
  let label := pyStrip label
  if pyLen label > 80 then pyTake label 80 else label

/-- `key.strip().lower()`, the key normalization every operation applies. -/
def normKey (key : String) : String := pyLower (pyStrip key)

/-- `add_task(cfg, key, label)`: returns the reply and the updated config. -/
def add_task (cfg : TasksConfig) (key label : String) : String × TasksConfig :=
  let key := normKey key
  if !valid_key key then
    ("Invalid key. Use 1–32 chars: lowercase letters, numbers, _ or -.", cfg)
  else
    let label := normalize_label label
    if label == "" then
      ("Label cannot be empty.", cfg)
    else if (task_map cfg).any (fun p => p.1 == key) then
      ("Task '" ++ key ++ "' already exists. Use /label " ++ key ++
        " <new label> to rename.", cfg)
    else
      let cfg := { cfg with tasks := cfg.tasks ++ [⟨key, label⟩] }
      let cfg := if cfg.default.getD "" == "" then
          { cfg with default := some key } else cfg
      ("Added task: " ++ key ++ " = " ++ label, cfg)

/-- `remove_task(cfg, done_map, key)`: returns the reply, the updated config
and the updated ledger. Note the filtered task list is assigned back into the
config before the found/not-found test, exactly as in the source. -/
def remove_task (cfg : TasksConfig) (done_map : Ledger) (key : String) :
    String × TasksConfig × Ledger :=
  let key := normKey key
  let tasks := cfg.tasks
  let filtered := tasks.filter (fun t => t.key != key)
  let cfg := { cfg with tasks := filtered }
  if filtered.length == tasks.length then
    ("No task named '" ++ key ++ "'.", cfg, done_map)
  else
    let done_map := pyDictPop done_map key
    let cfg := if cfg.default == some key then
        { cfg with default := filtered.head?.map TaskDef.key }
      else cfg
    ("Removed task '" ++ key ++ "'.", cfg, done_map)

/-- `set_default(cfg, key)`. -/
def set_default (cfg : TasksConfig) (key : String) : String × TasksConfig :=
  let key := normKey key
  if !(task_map cfg).any (fun p => p.1 == key) then
    ("No task named '" ++ key ++ "'. Use /tasks.", cfg)
  else
    ("Default task set to '" ++ key ++ "'.", { cfg with default := some key })

/-- The in-place update loop of `set_label`: rewrite the first entry with the
given key, report whether one was found. -/
def updateLabel : List TaskDef → String → String → List TaskDef × Bool
  | [], _, _ => ([], false)
  | t :: ts, key, label =>
    if t.key == key then ({ t with label := label } :: ts, true)
    else
      let r := updateLabel ts key label
      (t :: r.1, r.2)

/-- `set_label(cfg, key, label)`. -/
def set_label (cfg : TasksConfig) (key label : String) : String × TasksConfig :=
  let key := normKey key
  let label := normalize_label label
  if label == "" then
    ("Label cannot be empty.", cfg)
  else
    let r := updateLabel cfg.tasks key label
    if r.2 then
      ("Updated label: " ++ key ++ " = " ++ label, { cfg with tasks := r.1 })
    else
      ("No task named '" ++ key ++ "'. Use /tasks.", cfg)

/-- `help_text(cfg)`. -/
def help_text (cfg : TasksConfig) : String :=
  "Commands:\n" ++
    "- /tasks (show tasks)\n" ++
    "- /add <key> <label>   (example: /add gym Gym)\n" ++
    "- /remove <key>\n" ++
    "- /label <key> <label> (rename label)\n" ++
    "- /default <key>\n" ++
    "- /done <key>          (example: /done gym)\n" ++
    "- /status\n" ++
    "- /reset               (clears completion for the target day)\n" ++
    "- /resetall            (clears done + update offset)\n\n" ++
    "Current tasks:\n" ++
    format_tasks cfg

/-- Python `str.split(maxsplit=n)` on whitespace, one token at a time: skip
separators, take a token, and once `n` tokens are taken keep the remainder
verbatim. The string is handed over as a character list with the leading
whitespace already dropped. -/
def pySplitGo : Nat → List Char → List (List Char)
  | _, [] => []
  | 0, l => [l]
  | n + 1, l =>
    let tok := l.takeWhile (fun c => !c.isWhitespace)
    let rest := (l.dropWhile (fun c => !c.isWhitespace)).dropWhile Char.isWhitespace
    tok :: pySplitGo n rest

/-- Python `s.split(maxsplit)` on whitespace. -/
def pySplit (maxsplit : Nat) (s : String) : List String :=
  (pySplitGo maxsplit (s.data.dropWhile Char.isWhitespace)).map List.asString

/-- The message payload of an update: originating chat and text
(`str(chat.get("id"))` and `msg.get("text") or ""`). -/
structure ChatMessage where
  chatId : String
  text : String
deriving DecidableEq

/-- One Telegram update: `update_id` (absent keeps the old watermark) and the
message (or edited message) payload, if any. -/
structure Update where
  update_id : Option Int
  message : Option ChatMessage
deriving DecidableEq

/-- The mutable locals of `main`'s update loop. -/
structure LoopState where
  last_update_id : Int
  cfg : TasksConfig
  done_map : Ledger
  cfg_changed : Bool
  state_changed : Bool
  responded : Bool
  status_requested : Bool
  tasks_requested : Bool
  reset_today : Bool
  reset_all : Bool
  sent : List String
deriving DecidableEq

/-- The initial loop state: flags clear, nothing sent yet. -/
def initLoopState (last_update_id : Int) (cfg : TasksConfig) (done_map : Ledger) :
    LoopState :=
  ⟨last_update_id, cfg, done_map, false, false, false, false, false, false, false, []⟩

/-- The `/add <key> <label...>` branch of the loop body. -/
def cmdAdd (st : LoopState) (text : String) : LoopState :=
  let parts := pySplit 2 text
  if parts.length < 3 then
    { st with
      responded := true
      sent := st.sent ++ ["Usage: /add <key> <label>  (example: /add gym Gym)"] }
  else
    let r := add_task st.cfg (parts.getD 1 "") (parts.getD 2 "")
    { st with
      cfg := r.2
      cfg_changed := true
      responded := true
      sent := st.sent ++ [r.1] }

/-- The `/remove <key>` branch of the loop body. -/
def cmdRemove (st : LoopState) (lower : String) : LoopState :=
  let parts := pySplit 1 lower
  if parts.length < 2 then
    { st with responded := true, sent := st.sent ++ ["Usage: /remove <key>"] }
  else
    let r := remove_task st.cfg st.done_map (parts.getD 1 "")
    { st with
      cfg := r.2.1
      done_map := r.2.2
      cfg_changed := true
      state_changed := true
      responded := true
      sent := st.sent ++ [r.1] }

/-- The `/label <key> <new label...>` branch of the loop body. -/
def cmdLabel (st : LoopState) (text : String) : LoopState :=
  let parts := pySplit 2 text
  if parts.length < 3 then
    { st with
      responded := true
      sent := st.sent ++ ["Usage: /label <key> <new label>"] }
  else
    let r := set_label st.cfg (parts.getD 1 "") (parts.getD 2 "")
    { st with
      cfg := r.2
      cfg_changed := true
      responded := true
      sent := st.sent ++ [r.1] }

/-- The `/default <key>` branch of the loop body. -/
def cmdDefault (st : LoopState) (lower : String) : LoopState :=
  let parts := pySplit 1 lower
  if parts.length < 2 then
    { st with responded := true, sent := st.sent ++ ["Usage: /default <key>"] }
  else
    let r := set_default st.cfg (parts.getD 1 "")
    { st with
      cfg := r.2
      cfg_changed := true
      responded := true
      sent := st.sent ++ [r.1] }

/-- The `/done [key]` branch of the loop body: an explicit key, else the
default key, else a distinct no-default message. -/
def cmdDone (target_date : Int) (st : LoopState) (lower : String) : LoopState :=
  let parts := pySplit 1 lower
  let key := if parts.length > 1 then pyLower (pyStrip (parts.getD 1 ""))
    else st.cfg.default.getD ""
  if key == "" then
    { st with
      responded := true
      sent := st.sent ++ ["No default task set. Use /add to create a task first."] }
  else if !(task_map st.cfg).any (fun p => p.1 == key) then
    { st with
      responded := true
      sent := st.sent ++ ["Unknown task '" ++ key ++ "'. Use /tasks."] }
  else
    { st with
      done_map := pyDictSet st.done_map key target_date
      state_changed := true
      responded := true
      sent := st.sent ++
        ["Marked done: " ++ key ++ " for " ++ toString target_date ++ "."] }

/-- One iteration of `main`'s `for upd in updates` loop: advance the watermark,
skip foreign or empty updates, and dispatch on the command prefix (each
command's branch body is its `cmd…` helper above). -/
def processUpdate (chatId : String) (target_date : Int) (st : LoopState)
    (upd : Update) : LoopState :=
  let st := { st with
    last_update_id := max st.last_update_id (upd.update_id.getD st.last_update_id) }
  match upd.message with
  | none => st
  | some msg =>
    if msg.chatId != chatId then st
    else
      let text := pyStrip msg.text
      let lower := pyLower text
      if pyStartswith lower "/tasks" || pyStartswith lower "/help" then
        { st with tasks_requested := true }
      else if pyStartswith lower "/status" then
        { st with status_requested := true }
      else if pyStartswith lower "/resetall" then
        { st with reset_all := true }
      else if pyStartswith lower "/reset" then
        { st with reset_today := true }
      else if pyStartswith lower "/add" then cmdAdd st text
      else if pyStartswith lower "/remove" then cmdRemove st lower
      else if pyStartswith lower "/label" then cmdLabel st text
      else if pyStartswith lower "/default" then cmdDefault st lower
      else if pyStartswith lower "/done" then cmdDone target_date st lower
      else st

/-- The whole update loop, folded left over the fetched updates. -/
def loopPhase (chatId : String) (target_date : Int) (st : LoopState)
    (updates : List Update) : LoopState :=
  updates.foldl (processUpdate chatId target_date) st

/-- The `# Apply resets` block: `/resetall` wins over `/reset`; each flag is
applied at most once, after the loop. -/
def resetPhase (target_date : Int) (st : LoopState) : LoopState :=
  if st.reset_all then
    { st with
      done_map := []
      last_update_id := 0
      state_changed := true
      responded := true
      sent := st.sent ++ ["Reset all memory (done + update offset)."] }
  else if st.reset_today then
    { st with
      done_map := st.done_map.filter (fun p => p.2 != target_date)
      state_changed := true
      responded := true
      sent := st.sent ++ ["Reset completion for " ++ toString target_date ++ "."] }
  else st

/-- The `/status` reply text. -/
def statusText (cfg : TasksConfig) (done_map : Ledger) (target_date : Int) :
    String :=
  let pending := get_pending cfg done_map target_date
  if pending.isEmpty then
    "Status: ALL DONE for " ++ toString target_date ++ "."
  else
    "Status for " ++ toString target_date ++ ":\nPending: " ++
      pyJoin ", " (pending.map (fun p => p.2)) ++
      "\nMark done: /done <key>  (see keys with /tasks)"

/-- The reminder text. -/
def reminderText (cfg : TasksConfig) (done_map : Ledger) (target_date : Int) :
    String :=
  "Reminder for " ++ toString target_date ++ ":\nPending: " ++
    pyJoin ", " ((get_pending cfg done_map target_date).map (fun p => p.2)) ++
    "\n\nUse /done <key> (see keys with /tasks)"

/-- What a run leaves behind: the persisted state blob (watermark and ledger),
the persisted tasks blob, and every message sent, in order. -/
structure RunResult where
  last_update_id : Int
  done_map : Ledger
  cfg : TasksConfig
  sent : List String
deriving DecidableEq

/-- The tail of `main` after the resets are applied and the state saved:
answer `/tasks`, else `/status` (with the pre-loop target date), else stop if
some command already replied, else re-read the clock and maybe remind. -/
def finalPhase (target_date : Int) (st : LoopState) (now2 : DateTime) : RunResult :=
  if st.tasks_requested then
    ⟨st.last_update_id, st.done_map, st.cfg, st.sent ++ [help_text st.cfg]⟩
  else if st.status_requested then
    ⟨st.last_update_id, st.done_map, st.cfg,
      st.sent ++ [statusText st.cfg st.done_map target_date]⟩
  else if st.responded then
    ⟨st.last_update_id, st.done_map, st.cfg, st.sent⟩
  else
    let target_date := compute_target_date now2
    if !in_reminder_window now2 then
      ⟨st.last_update_id, st.done_map, st.cfg, st.sent⟩
    else
      let pending := get_pending st.cfg st.done_map target_date
      if pending.isEmpty then
        ⟨st.last_update_id, st.done_map, st.cfg, st.sent⟩
      else
        ⟨st.last_update_id, st.done_map, st.cfg,
          st.sent ++ [reminderText st.cfg st.done_map target_date]⟩

/-- One invocation of `main`, with the loaded state, the fetched updates and
the two clock reads (`now` before the loop, `now2` at reminder time) as
inputs. -/
def runMain (chatId : String) (last_update_id : Int) (done_map : Ledger)
    (cfg : TasksConfig) (now : DateTime) (updates : List Update)
    (now2 : DateTime) : RunResult :=
  let target_date := compute_target_date now
  let st := loopPhase chatId target_date (initLoopState last_update_id cfg done_map)
    updates
  let st := resetPhase target_date st
  finalPhase target_date st now2

/-- A two-task fixture used to instantiate theorems with hypotheses. -/
def cfgGym : TasksConfig := ⟨some "gym", [⟨"gym", "Gym"⟩, ⟨"read", "Read"⟩]⟩

/-- Updating one key of a dict leaves every key's presence unchanged except
that the updated key is now present. -/
theorem any_key_map_update {α : Type} {a k : String} (v : α)
    (hak : (a == k) = false) (m : List (String × α)) :
    ((m.map (fun p => if p.1 == a then (a, v) else p)).any (fun p => p.1 == k))
      = m.any (fun p => p.1 == k) := by
  induction m with
  | nil => rfl
  | cons p m ih =>
    simp only [List.map_cons, List.any_cons, ih]
    by_cases h : p.1 = a
    · simp [h, hak]
    · simp [h]

/-- Key presence after a Python dict assignment. -/
theorem any_key_pyDictSet {α : Type} (m : List (String × α)) (a : String)
    (v : α) (k : String) :
    ((pyDictSet m a v).any (fun p => p.1 == k))
      = (m.any (fun p => p.1 == k) || (a == k)) := by
  unfold pyDictSet
  split
  · rename_i h
    by_cases hak : a = k
    · subst hak
      simp only [beq_self_eq_true, Bool.or_true]
      rw [List.any_eq_true] at h ⊢
      obtain ⟨p, hp, hpa⟩ := h
      exact ⟨(a, v), List.mem_map.mpr ⟨p, hp, by simp [hpa]⟩, by simp⟩
    · have hak' : (a == k) = false := by simp [hak]
      rw [hak', Bool.or_false, any_key_map_update v hak']
  · simp [List.any_append]

/-- Key presence in the dict built by folding assignments over a task list. -/
theorem any_key_task_map_go (k : String) (ts : List TaskDef) :
    ∀ m : List (String × String),
      ((ts.foldl (fun m t => pyDictSet m t.key t.label) m).any (fun p => p.1 == k))
        = (m.any (fun p => p.1 == k) || ts.any (fun t => t.key == k)) := by
  induction ts with
  | nil => simp
  | cons t ts ih =>
    intro m
    simp only [List.foldl_cons, List.any_cons]
    rw [ih, any_key_pyDictSet, Bool.or_assoc]

/-- Membership in `task_map` is key membership in the task list. -/
theorem any_key_task_map (cfg : TasksConfig) (k : String) :
    ((task_map cfg).any (fun p => p.1 == k)) = cfg.tasks.any (fun t => t.key == k) := by
  unfold task_map
  rw [any_key_task_map_go]
  simp

/-- With pairwise distinct keys the dict is just the list of pairs, in task
order. -/
theorem task_map_go_eq_of_nodup (ts : List TaskDef) :
    ∀ m : List (String × String),
      (ts.map TaskDef.key).Nodup →
      (∀ t ∈ ts, m.any (fun p => p.1 == t.key) = false) →
      ts.foldl (fun m t => pyDictSet m t.key t.label) m
        = m ++ ts.map (fun t => (t.key, t.label)) := by
  induction ts with
  | nil => simp
  | cons t ts ih =>
    intro m hnd hdisj
    have habs : m.any (fun p => p.1 == t.key) = false :=
      hdisj t (List.mem_cons_self t ts)
    simp only [List.foldl_cons]
    rw [show pyDictSet m t.key t.label = m ++ [(t.key, t.label)] by
      unfold pyDictSet; rw [habs]; simp]
    rw [List.map_cons] at hnd
    have hnd' := hnd.of_cons
    have hkey : t.key ∉ ts.map TaskDef.key := by
      intro hmem
      exact (List.nodup_cons.mp hnd).1 hmem
    rw [ih (m ++ [(t.key, t.label)]) hnd' ?_]
    · simp
    · intro u hu
      rw [List.any_append]
      have h1 : m.any (fun p => p.1 == u.key) = false := hdisj u (List.mem_cons_of_mem t hu)
      have h2 : (t.key == u.key) = false := by
        rw [beq_eq_false_iff_ne]
        intro he
        exact hkey (he ▸ List.mem_map_of_mem TaskDef.key hu)
      simp [h1, h2]

/-- With pairwise distinct keys `task_map` lists exactly the task pairs in
insertion order. -/
theorem task_map_eq_of_nodup (cfg : TasksConfig)
    (h : (cfg.tasks.map TaskDef.key).Nodup) :
    task_map cfg = cfg.tasks.map (fun t => (t.key, t.label)) := by
  unfold task_map
  rw [task_map_go_eq_of_nodup cfg.tasks [] h (by simp)]
  simp

/-- `updateLabel` rewrites labels only: key presence is untouched. -/
theorem any_key_updateLabel (ts : List TaskDef) (key label d : String) :
    ((updateLabel ts key label).1.any (fun t => t.key == d))
      = ts.any (fun t => t.key == d) := by
  induction ts with
  | nil => rfl
  | cons t ts ih =>
    by_cases h : t.key = key
    · simp [updateLabel, h]
    · simp [updateLabel, h, List.any_cons, ih]

/-- `updateLabel` reports failure exactly when the key is absent. -/
theorem updateLabel_not_found (ts : List TaskDef) (key label : String)
    (h : ts.any (fun t => t.key == key) = false) :
    (updateLabel ts key label).2 = false := by
  induction ts with
  | nil => rfl
  | cons t ts ih =>
    rw [List.any_cons] at h
    have h1 : (t.key == key) = false := by
      cases hb : (t.key == key) <;> simp [hb] at h ⊢
    have h2 : ts.any (fun t => t.key == key) = false := by
      cases hb : ts.any (fun t => t.key == key) <;> simp [hb, h1] at h ⊢
    have h1' : ¬ t.key = key := by simpa using h1
    simp [updateLabel, h1', ih h2]

end TaskNagger

namespace TaskNagger

/-- The clock-and-window claim C3: the target date is the previous calendar
date exactly when the time of day is at or before the 02:00:00 cutoff
(inclusive boundary), and the current calendar date otherwise. -/
theorem compute_target_date_spec (now : DateTime) :
    (compute_target_date now = now.day - 1 ↔ now.tod ≤ CUTOFF_TIME) ∧
    (compute_target_date now = now.day ↔ ¬ now.tod ≤ CUTOFF_TIME) := by
  by_cases h : now.tod ≤ CUTOFF_TIME
  · simp [compute_target_date, h]
  · simp [compute_target_date, h]
    omega

/-- The window claim C4: membership is exactly `19:00:00 ≤ tod ∨ tod ≤ 02:00:00`,
with both boundaries inclusive. -/
theorem in_reminder_window_spec (now : DateTime) :
    (in_reminder_window now = true ↔
      (START_TIME ≤ now.tod ∨ now.tod ≤ CUTOFF_TIME)) ∧
    in_reminder_window ⟨now.day, START_TIME⟩ = true ∧
    in_reminder_window ⟨now.day, CUTOFF_TIME⟩ = true := by
  refine ⟨?_, ?_, ?_⟩ <;> simp [in_reminder_window]

end TaskNagger

namespace TaskNagger

/-- C9: for a registry with pairwise distinct keys (the registry invariant),
`get_pending` returns exactly the `(key, label)` pairs of the registry tasks
whose ledger entry differs from the target date, in registry insertion order. -/
theorem get_pending_spec (cfg : TasksConfig) (done_map : Ledger) (d : Int)
    (h : (cfg.tasks.map TaskDef.key).Nodup) :
    get_pending cfg done_map d
      = (cfg.tasks.filter (fun t => pyDictGet done_map t.key != some d)).map
          (fun t => (t.key, t.label)) := by
  unfold get_pending
  rw [task_map_eq_of_nodup cfg h, List.filter_map]
  rfl

/-- Witness for C9 at a concrete registry and ledger. -/
theorem get_pending_spec_witness :
    ((cfgGym.tasks.map TaskDef.key).Nodup ∧
      get_pending cfgGym [("gym", 5)] 5
        = (cfgGym.tasks.filter (fun t => pyDictGet [("gym", 5)] t.key != some 5)).map
            (fun t => (t.key, t.label))) :=
  ⟨by decide, get_pending_spec cfgGym [("gym", 5)] 5 (by decide)⟩

/-- C10: whenever a registry operation takes one of its failure branches
(invalid key, empty label, duplicate key or unknown key), the registry's task
list, its default key and the completion ledger are returned unchanged. -/
theorem registry_ops_fail_atomic (cfg : TasksConfig) (done_map : Ledger)
    (key label : String) :
    ((valid_key (normKey key) = false ∨ normalize_label label = "" ∨
        cfg.tasks.any (fun t => t.key == normKey key) = true) →
      (add_task cfg key label).2 = cfg) ∧
    (cfg.tasks.any (fun t => t.key == normKey key) = false →
      (remove_task cfg done_map key).2 = (cfg, done_map)) ∧
    (cfg.tasks.any (fun t => t.key == normKey key) = false →
      (set_default cfg key).2 = cfg) ∧
    ((normalize_label label = "" ∨
        cfg.tasks.any (fun t => t.key == normKey key) = false) →
      (set_label cfg key label).2 = cfg) := by
  refine ⟨?_, ?_, ?_, ?_⟩
  · intro h
    unfold add_task
    rcases h with h | h | h
    · simp [h]
    · by_cases hv : valid_key (normKey key) <;> simp [hv, h]
    · by_cases hv : valid_key (normKey key) <;>
        by_cases hl : normalize_label label = "" <;>
          simp [hv, hl, any_key_task_map, h]
  · intro h
    unfold remove_task
    have hall := List.any_eq_false.mp h
    have hfilter : cfg.tasks.filter (fun t => t.key != normKey key) = cfg.tasks := by
      rw [List.filter_eq_self]
      intro t ht
      have := hall t ht
      simp only [bne_iff_ne, ne_eq]
      simpa using this
    simp [hfilter]
  · intro h
    unfold set_default
    simp [any_key_task_map, h]
  · intro h
    unfold set_label
    rcases h with h | h
    · simp [h]
    · by_cases hl : normalize_label label = ""
      · simp [hl]
      · simp [hl, updateLabel_not_found cfg.tasks (normKey key) (normalize_label label) h]

/-- Witness for C10: an invalid key and an empty label make all four
operations fail on the fixture, each leaving it untouched. -/
theorem registry_ops_fail_atomic_witness :
    (add_task cfgGym "A!" "").2 = cfgGym ∧
    (remove_task cfgGym [("gym", 5)] "A!").2 = (cfgGym, [("gym", 5)]) ∧
    (set_default cfgGym "A!").2 = cfgGym ∧
    (set_label cfgGym "A!" "").2 = cfgGym := by
  have h := registry_ops_fail_atomic cfgGym [("gym", 5)] "A!" ""
  exact ⟨h.1 (Or.inl (by decide)), h.2.1 (by decide), h.2.2.1 (by decide),
    h.2.2.2 (Or.inl (by decide))⟩

end TaskNagger

namespace TaskNagger

/-- A task list containing the key filters to a strictly shorter list, so the
length test of `remove_task` reports a removal. -/
theorem filter_len_ne_of_mem {ts : List TaskDef} {k : String}
    (h : ts.any (fun t => t.key == k) = true) :
    ((ts.filter (fun t => t.key != k)).length == ts.length) = false := by
  rw [List.any_eq_true] at h
  obtain ⟨t, ht, htk⟩ := h
  apply Bool.eq_false_iff.mpr
  intro hbeq
  have hlen : (ts.filter (fun t => t.key != k)).length = ts.length := by
    simpa using hbeq
  have hall := List.filter_length_eq_length.mp hlen t ht
  rw [bne] at hall
  rw [htk] at hall
  simp at hall

/-- Branch equation: `remove_task` on an absent key is a no-op with the
not-found message. -/
theorem remove_task_not_found_eq (cfg : TasksConfig) (done_map : Ledger)
    (key : String) (h : cfg.tasks.any (fun t => t.key == normKey key) = false) :
    remove_task cfg done_map key
      = ("No task named '" ++ normKey key ++ "'.", cfg, done_map) := by
  have hall := List.any_eq_false.mp h
  have hfe : cfg.tasks.filter (fun t => t.key != normKey key) = cfg.tasks := by
    rw [List.filter_eq_self]
    intro t ht
    simpa using hall t ht
  unfold remove_task
  simp [hfe]

/-- Branch equation: `remove_task` on a present key filters the task list,
prunes the ledger, and reassigns the default when it was the removed key. -/
theorem remove_task_found_eq (cfg : TasksConfig) (done_map : Ledger)
    (key : String) (h : cfg.tasks.any (fun t => t.key == normKey key) = true) :
    remove_task cfg done_map key
      = ("Removed task '" ++ normKey key ++ "'.",
          ⟨if cfg.default == some (normKey key) then
              (cfg.tasks.filter (fun t => t.key != normKey key)).head?.map TaskDef.key
            else cfg.default,
            cfg.tasks.filter (fun t => t.key != normKey key)⟩,
          pyDictPop done_map (normKey key)) := by
  have hlen := filter_len_ne_of_mem h
  unfold remove_task
  simp only [hlen, Bool.false_eq_true, if_false]
  by_cases hdef : cfg.default = some (normKey key) <;> simp [hdef]

/-- Branch equation: a successful `add_task` appends the task and fills an
unset (or empty) default. -/
theorem add_task_success_eq (cfg : TasksConfig) (key label : String)
    (hv : valid_key (normKey key) = true)
    (hl : ¬ normalize_label label = "")
    (hdup : cfg.tasks.any (fun t => t.key == normKey key) = false) :
    add_task cfg key label
      = ("Added task: " ++ normKey key ++ " = " ++ normalize_label label,
          ⟨if cfg.default.getD "" == "" then some (normKey key) else cfg.default,
            cfg.tasks ++ [⟨normKey key, normalize_label label⟩]⟩) := by
  have hdup' : ((task_map cfg).any (fun p => p.1 == normKey key)) = false := by
    rw [any_key_task_map]
    exact hdup
  unfold add_task
  by_cases hd : cfg.default.getD "" = "" <;> simp [hv, hl, hdup', hd]

end TaskNagger

namespace TaskNagger

/-- The registry invariant: the default key, if set, references an existing
task. -/
def registryInvariant (cfg : TasksConfig) : Bool :=
  match cfg.default with
  | none => true
  | some k => cfg.tasks.any (fun t => t.key == k)

/-- A sufficient condition for the invariant: whatever the default key is, it
names some task. -/
theorem registryInvariant_of_any (cfg : TasksConfig)
    (h : ∀ d, cfg.default = some d → cfg.tasks.any (fun t => t.key == d) = true) :
    registryInvariant cfg = true := by
  unfold registryInvariant
  cases hdo : cfg.default with
  | none => rfl
  | some d => exact h d hdo

/-- C5: every registry operation preserves the default-key invariant, and
removing the default task reassigns the default to the first remaining task's
key (`head?` of the filtered list, `none` when no task remains). -/
theorem registry_invariant_preserved (cfg : TasksConfig) (done_map : Ledger)
    (key label : String) (hinv : registryInvariant cfg = true) :
    registryInvariant (add_task cfg key label).2 = true ∧
    registryInvariant (remove_task cfg done_map key).2.1 = true ∧
    registryInvariant (set_default cfg key).2 = true ∧
    registryInvariant (set_label cfg key label).2 = true ∧
    (cfg.default = some (normKey key) →
      (remove_task cfg done_map key).2.1.default
        = (cfg.tasks.filter (fun t => t.key != normKey key)).head?.map TaskDef.key) := by
  refine ⟨?_, ?_, ?_, ?_, ?_⟩
  · -- add_task
    by_cases hv : valid_key (normKey key) = true
    · by_cases hl : normalize_label label = ""
      · simp [add_task, hv, hl, hinv]
      · by_cases hdup : cfg.tasks.any (fun t => t.key == normKey key) = true
        · have hdup' : ((task_map cfg).any (fun p => p.1 == normKey key)) = true := by
            rw [any_key_task_map]
            exact hdup
          simp [add_task, hv, hl, hdup', hinv]
        · rw [add_task_success_eq cfg key label hv hl (Bool.not_eq_true _ ▸ hdup)]
          by_cases hd : cfg.default.getD "" = ""
          · simp [hd, registryInvariant, List.any_append]
          · cases hdo : cfg.default with
            | none => simp [hdo] at hd
            | some d =>
              have hde : ¬ d = "" := by simpa [hdo] using hd
              have hmem : cfg.tasks.any (fun t => t.key == d) = true := by
                have h2 := hinv
                unfold registryInvariant at h2
                rwa [hdo] at h2
              simp [hdo, hde, registryInvariant, List.any_append, hmem]
    · have hv' : valid_key (normKey key) = false := Bool.not_eq_true _ ▸ hv
      simp [add_task, hv', hinv]
  · -- remove_task
    by_cases hfound : cfg.tasks.any (fun t => t.key == normKey key) = true
    · rw [remove_task_found_eq cfg done_map key hfound]
      by_cases hdef : cfg.default = some (normKey key)
      · cases hfil : cfg.tasks.filter (fun t => t.key != normKey key) with
        | nil => simp [hdef, hfil, registryInvariant]
        | cons t ts => simp [hdef, hfil, registryInvariant]
      · apply registryInvariant_of_any
        intro d hd2
        have hd3 : cfg.default = some d := by
          have h4 : (if (cfg.default == some (normKey key)) = true then
              (cfg.tasks.filter (fun t => t.key != normKey key)).head?.map TaskDef.key
            else cfg.default) = some d := hd2
          rwa [if_neg (by simp [hdef])] at h4
        have hmem : cfg.tasks.any (fun t => t.key == d) = true := by
          have h2 := hinv
          unfold registryInvariant at h2
          rwa [hd3] at h2
        rw [List.any_eq_true] at hmem
        obtain ⟨t, ht, htk⟩ := hmem
        have htk' : t.key = d := by simpa using htk
        have hdk : ¬ d = normKey key := fun he => hdef (by rw [hd3, he])
        rw [show ((⟨if cfg.default == some (normKey key) then
              (cfg.tasks.filter (fun t => t.key != normKey key)).head?.map TaskDef.key
            else cfg.default,
            cfg.tasks.filter (fun t => t.key != normKey key)⟩ : TasksConfig)).tasks
          = cfg.tasks.filter (fun t => t.key != normKey key) from rfl]
        rw [List.any_eq_true]
        exact ⟨t, List.mem_filter.mpr ⟨ht, by simp [htk', hdk]⟩, htk⟩
    · rw [remove_task_not_found_eq cfg done_map key (Bool.not_eq_true _ ▸ hfound)]
      exact hinv
  · -- set_default
    by_cases hmem : (task_map cfg).any (fun p => p.1 == normKey key) = true
    · have hmem' : cfg.tasks.any (fun t => t.key == normKey key) = true := by
        rwa [any_key_task_map] at hmem
      simp [set_default, hmem, registryInvariant, hmem']
    · simp [set_default, (Bool.not_eq_true _ ▸ hmem : _ = false), hinv]
  · -- set_label
    by_cases hl : normalize_label label = ""
    · simp [set_label, hl, hinv]
    · by_cases hupd : (updateLabel cfg.tasks (normKey key) (normalize_label label)).2 = true
      · have heq : (set_label cfg key label).2
            = { cfg with tasks := (updateLabel cfg.tasks (normKey key) (normalize_label label)).1 } := by
          simp [set_label, hl, hupd]
        rw [heq]
        unfold registryInvariant at hinv ⊢
        cases hdo : cfg.default with
        | none => simp [hdo]
        | some d =>
          simp only [hdo]
          rw [any_key_updateLabel]
          rwa [hdo] at hinv
      · simp [set_label, hl, (Bool.not_eq_true _ ▸ hupd : _ = false), hinv]
  · -- removing the default task reassigns it
    intro hd
    have hfound : cfg.tasks.any (fun t => t.key == normKey key) = true := by
      have h2 := hinv
      unfold registryInvariant at h2
      rwa [hd] at h2
    rw [remove_task_found_eq cfg done_map key hfound]
    simp [hd]

/-- Witness for C5 on the two-task fixture. -/
theorem registry_invariant_preserved_witness :
    (registryInvariant cfgGym = true) ∧
    registryInvariant (add_task cfgGym "run" "Run").2 = true ∧
    registryInvariant (remove_task cfgGym [("gym", 5)] "gym").2.1 = true ∧
    registryInvariant (set_default cfgGym "gym").2 = true ∧
    registryInvariant (set_label cfgGym "gym" "Run").2 = true ∧
    (cfgGym.default = some (normKey "gym") →
      (remove_task cfgGym [("gym", 5)] "gym").2.1.default
        = (cfgGym.tasks.filter (fun t => t.key != normKey "gym")).head?.map TaskDef.key) := by
  have h := registry_invariant_preserved cfgGym [("gym", 5)] "gym" "Run" (by decide)
  have h2 := registry_invariant_preserved cfgGym [("gym", 5)] "run" "Run" (by decide)
  exact ⟨by decide, h2.1, h.2.1, h.2.2.1, h.2.2.2.1, h.2.2.2.2⟩

end TaskNagger

namespace TaskNagger

/-- After popping a key from a dict, looking that key up yields nothing. -/
theorem pyDictGet_pop_self {α : Type} (m : List (String × α)) (k : String) :
    pyDictGet (pyDictPop m k) k = none := by
  have hnone : (pyDictPop m k).find? (fun p => p.1 == k) = none := by
    rw [List.find?_eq_none]
    intro p hp
    have h2 := (List.mem_filter.mp hp).2
    simp only [bne_iff_ne, ne_eq] at h2
    simpa using h2
  unfold pyDictGet
  rw [hnone]
  rfl

/-- C8: removing an existing key and re-adding it (with a valid key and a
nonempty label) leaves the appended fresh entry as the only one with that key,
and the ledger entry for the key is gone — pruned by the remove. -/
theorem remove_add_round_trip (cfg : TasksConfig) (done_map : Ledger)
    (key label : String)
    (hmem : cfg.tasks.any (fun t => t.key == normKey key) = true)
    (hv : valid_key (normKey key) = true)
    (hl : ¬ normalize_label label = "") :
    (add_task (remove_task cfg done_map key).2.1 key label).2.tasks
      = (remove_task cfg done_map key).2.1.tasks
          ++ [⟨normKey key, normalize_label label⟩] ∧
    (add_task (remove_task cfg done_map key).2.1 key label).2.tasks.find?
        (fun t => t.key == normKey key)
      = some ⟨normKey key, normalize_label label⟩ ∧
    pyDictGet (remove_task cfg done_map key).2.2 (normKey key) = none := by
  rw [remove_task_found_eq cfg done_map key hmem]
  set filtered := cfg.tasks.filter (fun t => t.key != normKey key) with hfil
  have hdup : filtered.any (fun t => t.key == normKey key) = false := by
    rw [List.any_eq_false]
    intro t ht
    have h2 := (List.mem_filter.mp ht).2
    simp only [bne_iff_ne, ne_eq] at h2
    simpa using h2
  set cfg1 : TasksConfig := ⟨if cfg.default == some (normKey key) then
      filtered.head?.map TaskDef.key else cfg.default, filtered⟩ with hcfg1
  have htasks : cfg1.tasks = filtered := rfl
  rw [add_task_success_eq cfg1 key label hv hl (htasks ▸ hdup)]
  refine ⟨rfl, ?_, pyDictGet_pop_self done_map (normKey key)⟩
  have hfn : filtered.find? (fun t => t.key == normKey key) = none := by
    rw [List.find?_eq_none]
    intro t ht
    have h2 := (List.mem_filter.mp ht).2
    simp only [bne_iff_ne, ne_eq] at h2
    simpa using h2
  show (filtered ++ [(⟨normKey key, normalize_label label⟩ : TaskDef)]).find?
      (fun t => t.key == normKey key) = _
  rw [List.find?_append, hfn]
  simp

/-- Witness for C8: remove `gym` from the fixture and add it back with a new
label. -/
theorem remove_add_round_trip_witness :
    (cfgGym.tasks.any (fun t => t.key == normKey "gym") = true ∧
      valid_key (normKey "gym") = true ∧ ¬ normalize_label "Fitness" = "") ∧
    ((add_task (remove_task cfgGym [("gym", 5)] "gym").2.1 "gym" "Fitness").2.tasks
        = (remove_task cfgGym [("gym", 5)] "gym").2.1.tasks
            ++ [⟨normKey "gym", normalize_label "Fitness"⟩] ∧
      (add_task (remove_task cfgGym [("gym", 5)] "gym").2.1 "gym" "Fitness").2.tasks.find?
          (fun t => t.key == normKey "gym")
        = some ⟨normKey "gym", normalize_label "Fitness"⟩ ∧
      pyDictGet (remove_task cfgGym [("gym", 5)] "gym").2.2 (normKey "gym") = none) :=
  ⟨⟨by decide, by decide, by decide⟩,
    remove_add_round_trip cfgGym [("gym", 5)] "gym" "Fitness" (by decide) (by decide)
      (by decide)⟩

end TaskNagger

namespace TaskNagger

/-- The ten command prefixes the dispatcher recognizes, in dispatch order. -/
def recognized_commands : List String :=
  ["/tasks", "/help", "/status", "/resetall", "/reset", "/add", "/remove",
    "/label", "/default", "/done"]

/-- The first whitespace-separated token of a text (`""` for blank text). -/
def first_token (s : String) : String := (pySplit 1 s).headD ""

/-- C2 (amended): an update from the configured chat whose lowercased, trimmed
text does not START WITH any of the ten recognized command strings is silently
ignored: no reply, registry and ledger untouched, only the watermark advances.
(Dispatch is by case-insensitive prefix of the whole text, not by first
token.) -/
theorem unrecognized_text_ignored (chatId : String) (target_date : Int)
    (st : LoopState) (uid : Option Int) (msg : ChatMessage)
    (h : ∀ cmd ∈ recognized_commands,
      pyStartswith (pyLower (pyStrip msg.text)) cmd = false) :
    processUpdate chatId target_date st ⟨uid, some msg⟩
      = { st with
          last_update_id := max st.last_update_id (uid.getD st.last_update_id) } := by
  have h1 := h "/tasks" (by simp [recognized_commands])
  have h2 := h "/help" (by simp [recognized_commands])
  have h3 := h "/status" (by simp [recognized_commands])
  have h4 := h "/resetall" (by simp [recognized_commands])
  have h5 := h "/reset" (by simp [recognized_commands])
  have h6 := h "/add" (by simp [recognized_commands])
  have h7 := h "/remove" (by simp [recognized_commands])
  have h8 := h "/label" (by simp [recognized_commands])
  have h9 := h "/default" (by simp [recognized_commands])
  have h10 := h "/done" (by simp [recognized_commands])
  by_cases hc : (msg.chatId != chatId) = true
  · simp [processUpdate, hc]
  · simp [processUpdate, hc, h1, h2, h3, h4, h5, h6, h7, h8, h9, h10]

/-- Witness for C2's amended statement: casual chat is ignored. -/
theorem unrecognized_text_ignored_witness :
    (∀ cmd ∈ recognized_commands,
      pyStartswith (pyLower (pyStrip "hello there")) cmd = false) ∧
    processUpdate "c" 10 (initLoopState 0 cfgGym []) ⟨some 3, some ⟨"c", "hello there"⟩⟩
      = { initLoopState 0 cfgGym [] with
          last_update_id := max 0 ((some (3 : Int)).getD 0) } :=
  ⟨by decide,
    unrecognized_text_ignored "c" 10 (initLoopState 0 cfgGym []) (some 3)
      ⟨"c", "hello there"⟩ (by decide)⟩

/-- Counterexample to C2 as stated: `/donex` has first token `/donex`, which is
none of the ten commands, yet the code (prefix dispatch via `startswith`)
treats it as `/done`, replies, and mutates the ledger. -/
theorem first_token_dispatch_counterexample :
    recognized_commands.contains (pyLower (first_token (pyStrip "/donex"))) = false ∧
    (runMain "c" 0 [] cfgGym ⟨10, 72000000000⟩
        [⟨some 1, some ⟨"c", "/donex"⟩⟩] ⟨10, 72000000000⟩).sent
      = ["Marked done: gym for 10."] ∧
    (runMain "c" 0 [] cfgGym ⟨10, 72000000000⟩
        [⟨some 1, some ⟨"c", "/donex"⟩⟩] ⟨10, 72000000000⟩).done_map
      = [("gym", 10)] :=
  ⟨by decide, by decide, by decide⟩

end TaskNagger

namespace TaskNagger

/-- C1 (amended): the single tasks/help or status response is computed after
all per-message mutations and after reset application, from the current
(possibly just-reset) registry and ledger — but the status response uses the
target date computed from the wall clock BEFORE the update loop; only the
reminder path re-reads the clock. -/
theorem response_after_resets_uses_preloop_date (chatId : String)
    (last_update_id : Int) (done_map : Ledger) (cfg : TasksConfig)
    (now : DateTime) (updates : List Update) (now2 : DateTime) :
    (let st := resetPhase (compute_target_date now)
        (loopPhase chatId (compute_target_date now)
          (initLoopState last_update_id cfg done_map) updates);
      (st.tasks_requested = true →
        (runMain chatId last_update_id done_map cfg now updates now2).sent
          = st.sent ++ [help_text st.cfg]) ∧
      (st.tasks_requested = false → st.status_requested = true →
        (runMain chatId last_update_id done_map cfg now updates now2).sent
          = st.sent ++ [statusText st.cfg st.done_map (compute_target_date now)])) := by
  constructor
  · intro ht
    unfold runMain finalPhase
    simp [ht]
  · intro ht hs
    unfold runMain finalPhase
    simp [ht, hs]

/-- Counterexample to C1 as stated: a `/status` processed while the clock
crosses midnight between the loop and the response. The reply is built from
the pre-loop target date (day 10), not from a date recomputed at response
time (day 11). -/
theorem status_fresh_date_counterexample :
    (runMain "c" 0 [] cfgGym ⟨10, 72000000000⟩
        [⟨some 1, some ⟨"c", "/status"⟩⟩] ⟨11, 72000000000⟩).sent
      ≠ [statusText cfgGym [] (compute_target_date ⟨11, 72000000000⟩)] ∧
    (runMain "c" 0 [] cfgGym ⟨10, 72000000000⟩
        [⟨some 1, some ⟨"c", "/status"⟩⟩] ⟨11, 72000000000⟩).sent
      = [statusText cfgGym [] (compute_target_date ⟨10, 72000000000⟩)] :=
  ⟨by decide, by decide⟩

end TaskNagger

namespace TaskNagger

/-- The command handlers never touch the two reset flags (add). -/
theorem cmdAdd_reset_flags (st : LoopState) (text : String) :
    (cmdAdd st text).reset_all = st.reset_all ∧
    (cmdAdd st text).reset_today = st.reset_today := by
  unfold cmdAdd
  dsimp only
  refine ⟨?_, ?_⟩ <;> (repeat' split) <;> rfl

/-- The command handlers never touch the two reset flags (remove). -/
theorem cmdRemove_reset_flags (st : LoopState) (lower : String) :
    (cmdRemove st lower).reset_all = st.reset_all ∧
    (cmdRemove st lower).reset_today = st.reset_today := by
  unfold cmdRemove
  dsimp only
  refine ⟨?_, ?_⟩ <;> (repeat' split) <;> rfl

/-- The command handlers never touch the two reset flags (label). -/
theorem cmdLabel_reset_flags (st : LoopState) (text : String) :
    (cmdLabel st text).reset_all = st.reset_all ∧
    (cmdLabel st text).reset_today = st.reset_today := by
  unfold cmdLabel
  dsimp only
  refine ⟨?_, ?_⟩ <;> (repeat' split) <;> rfl

/-- The command handlers never touch the two reset flags (default). -/
theorem cmdDefault_reset_flags (st : LoopState) (lower : String) :
    (cmdDefault st lower).reset_all = st.reset_all ∧
    (cmdDefault st lower).reset_today = st.reset_today := by
  unfold cmdDefault
  dsimp only
  refine ⟨?_, ?_⟩ <;> (repeat' split) <;> rfl

/-- The command handlers never touch the two reset flags (done). -/
theorem cmdDone_reset_flags (target_date : Int) (st : LoopState) (lower : String) :
    (cmdDone target_date st lower).reset_all = st.reset_all ∧
    (cmdDone target_date st lower).reset_today = st.reset_today := by
  unfold cmdDone
  dsimp only
  refine ⟨?_, ?_⟩ <;> (repeat' split) <;> rfl

/-- No dispatch branch ever clears the `reset_all` flag. -/
theorem processUpdate_reset_all_mono (chatId : String) (target_date : Int)
    (st : LoopState) (upd : Update) (h : st.reset_all = true) :
    (processUpdate chatId target_date st upd).reset_all = true := by
  unfold processUpdate
  cases upd.message with
  | none => exact h
  | some msg =>
    dsimp only
    cases hb : (msg.chatId != chatId) with
    | true => exact h
    | false =>
      rw [if_neg (by decide : ¬ (false = true))]
      repeat' split
      all_goals
        first
          | (rw [(cmdAdd_reset_flags _ _).1]; exact h)
          | (rw [(cmdRemove_reset_flags _ _).1]; exact h)
          | (rw [(cmdLabel_reset_flags _ _).1]; exact h)
          | (rw [(cmdDefault_reset_flags _ _).1]; exact h)
          | (rw [(cmdDone_reset_flags _ _ _).1]; exact h)
          | rfl
          | exact h

/-- A `/resetall` text from the configured chat sets the `reset_all` flag. -/
theorem processUpdate_resetall_trigger (chatId : String) (target_date : Int)
    (st : LoopState) (uid : Option Int) :
    (processUpdate chatId target_date st
        ⟨uid, some ⟨chatId, "/resetall"⟩⟩).reset_all = true := by
  unfold processUpdate
  dsimp only
  rw [bne_self_eq_false]
  rfl

/-- Once `reset_all` is set, the rest of the loop keeps it set. -/
theorem loopPhase_reset_all_mono (chatId : String) (target_date : Int)
    (updates : List Update) (st : LoopState) (h : st.reset_all = true) :
    (loopPhase chatId target_date st updates).reset_all = true := by
  induction updates generalizing st with
  | nil => exact h
  | cons u us ih =>
    exact ih (processUpdate chatId target_date st u)
      (processUpdate_reset_all_mono chatId target_date st u h)

/-- A batch containing a `/resetall` from the configured chat ends the loop
with the `reset_all` flag set. -/
theorem loopPhase_resetall_of_mem (chatId : String) (target_date : Int)
    (updates : List Update) (st : LoopState) (uid : Option Int)
    (hmem : (⟨uid, some ⟨chatId, "/resetall"⟩⟩ : Update) ∈ updates) :
    (loopPhase chatId target_date st updates).reset_all = true := by
  induction updates generalizing st with
  | nil => cases hmem
  | cons u us ih =>
    rcases List.mem_cons.mp hmem with he | hm
    · show (loopPhase chatId target_date (processUpdate chatId target_date st u) us).reset_all = true
      exact loopPhase_reset_all_mono chatId target_date us _
        (he ▸ processUpdate_resetall_trigger chatId target_date st uid)
    · exact ih (processUpdate chatId target_date st u) hm

/-- The response phase never touches the persisted state fields. -/
theorem finalPhase_state_fields (target_date : Int) (st : LoopState)
    (now2 : DateTime) :
    (finalPhase target_date st now2).last_update_id = st.last_update_id ∧
    (finalPhase target_date st now2).done_map = st.done_map := by
  unfold finalPhase
  by_cases h1 : st.tasks_requested = true <;>
    by_cases h2 : st.status_requested = true <;>
      by_cases h3 : st.responded = true <;>
        by_cases h4 : (!in_reminder_window now2) = true <;>
          by_cases h5 : (get_pending st.cfg st.done_map
              (compute_target_date now2)).isEmpty = true <;>
            simp [h1, h2, h3, h4, h5]

/-- C7: any run whose batch contains a `/resetall` from the configured chat
ends with the watermark reset to 0 and an empty completion ledger, whatever
the prior state was. -/
theorem resetall_clears_state (chatId : String) (last_update_id : Int)
    (done_map : Ledger) (cfg : TasksConfig) (now : DateTime)
    (updates : List Update) (now2 : DateTime) (uid : Option Int)
    (hmem : (⟨uid, some ⟨chatId, "/resetall"⟩⟩ : Update) ∈ updates) :
    (runMain chatId last_update_id done_map cfg now updates now2).last_update_id = 0 ∧
    (runMain chatId last_update_id done_map cfg now updates now2).done_map = [] := by
  have hra := loopPhase_resetall_of_mem chatId (compute_target_date now) updates
    (initLoopState last_update_id cfg done_map) uid hmem
  have hreset : resetPhase (compute_target_date now)
      (loopPhase chatId (compute_target_date now)
        (initLoopState last_update_id cfg done_map) updates)
      = { loopPhase chatId (compute_target_date now)
            (initLoopState last_update_id cfg done_map) updates with
          done_map := []
          last_update_id := 0
          state_changed := true
          responded := true
          sent := (loopPhase chatId (compute_target_date now)
              (initLoopState last_update_id cfg done_map) updates).sent
            ++ ["Reset all memory (done + update offset)."] } := by
    simp [resetPhase, hra]
  have hfields := finalPhase_state_fields (compute_target_date now)
    (resetPhase (compute_target_date now)
      (loopPhase chatId (compute_target_date now)
        (initLoopState last_update_id cfg done_map) updates)) now2
  constructor
  · show (finalPhase (compute_target_date now) (resetPhase _ _) now2).last_update_id = 0
    rw [hfields.1, hreset]
  · show (finalPhase (compute_target_date now) (resetPhase _ _) now2).done_map = []
    rw [hfields.2, hreset]

/-- Witness for C7 at a concrete prior state and batch. -/
theorem resetall_clears_state_witness :
    ((⟨some 7, some ⟨"c", "/resetall"⟩⟩ : Update)
        ∈ [(⟨some 7, some ⟨"c", "/resetall"⟩⟩ : Update)]) ∧
    (runMain "c" 5 [("gym", 9)] cfgGym ⟨10, 72000000000⟩
        [⟨some 7, some ⟨"c", "/resetall"⟩⟩] ⟨10, 72000000000⟩).last_update_id = 0 ∧
    (runMain "c" 5 [("gym", 9)] cfgGym ⟨10, 72000000000⟩
        [⟨some 7, some ⟨"c", "/resetall"⟩⟩] ⟨10, 72000000000⟩).done_map = [] :=
  ⟨by decide,
    resetall_clears_state "c" 5 [("gym", 9)] cfgGym ⟨10, 72000000000⟩
      [⟨some 7, some ⟨"c", "/resetall"⟩⟩] ⟨10, 72000000000⟩ (some 7) (by decide)⟩

end TaskNagger

namespace TaskNagger

/-- After `/reset`'s filter, no ledger lookup can return the cleared date. -/
theorem pyDictGet_filter_value_ne (m : Ledger) (k : String) (d : Int) :
    pyDictGet (m.filter (fun p => p.2 != d)) k ≠ some d := by
  intro hcontra
  unfold pyDictGet at hcontra
  cases hf : (m.filter (fun p => p.2 != d)).find? (fun p => p.1 == k) with
  | none => rw [hf] at hcontra; exact Option.noConfusion hcontra
  | some q =>
    rw [hf] at hcontra
    have hq2 : q.2 = d := by simpa using hcontra
    have hmemq := List.mem_of_find?_eq_some hf
    have hpred := (List.mem_filter.mp hmemq).2
    rw [hq2] at hpred
    simp at hpred

/-- Dispatch equation for a `/reset` message from the configured chat. -/
theorem processUpdate_reset_eq (chatId : String) (target_date : Int)
    (st : LoopState) (uid : Option Int) :
    processUpdate chatId target_date st ⟨uid, some ⟨chatId, "/reset"⟩⟩
      = { st with
          last_update_id := max st.last_update_id (uid.getD st.last_update_id)
          reset_today := true } := by
  unfold processUpdate
  dsimp only
  rw [bne_self_eq_false]
  rfl

/-- Dispatch equation for a `/done gym` message from the configured chat. -/
theorem processUpdate_done_gym_eq (chatId : String) (target_date : Int)
    (st : LoopState) (uid : Option Int) :
    processUpdate chatId target_date st ⟨uid, some ⟨chatId, "/done gym"⟩⟩
      = cmdDone target_date
          { st with
            last_update_id := max st.last_update_id (uid.getD st.last_update_id) }
          (pyLower (pyStrip "/done gym")) := by
  unfold processUpdate
  dsimp only
  rw [bne_self_eq_false]
  rfl

/-- C6: in a batch `/done gym`, `/reset`, `/reset` (in that order) the resets
are deferred and applied exactly once after the whole loop — the final ledger
is the loop's ledger filtered of every entry for the target date — so no entry
can map `gym` to the target date: the reset wins over the earlier `/done`, and
the two `/reset` commands collapse to a single application. -/
theorem reset_wins_over_done (chatId : String) (last_update_id : Int)
    (done_map : Ledger) (cfg : TasksConfig) (now : DateTime) (now2 : DateTime)
    (i1 i2 i3 : Option Int) :
    (runMain chatId last_update_id done_map cfg now
        [⟨i1, some ⟨chatId, "/done gym"⟩⟩, ⟨i2, some ⟨chatId, "/reset"⟩⟩,
          ⟨i3, some ⟨chatId, "/reset"⟩⟩] now2).done_map
      = (loopPhase chatId (compute_target_date now)
            (initLoopState last_update_id cfg done_map)
            [⟨i1, some ⟨chatId, "/done gym"⟩⟩, ⟨i2, some ⟨chatId, "/reset"⟩⟩,
              ⟨i3, some ⟨chatId, "/reset"⟩⟩]).done_map.filter
          (fun p => p.2 != compute_target_date now) ∧
    pyDictGet (runMain chatId last_update_id done_map cfg now
        [⟨i1, some ⟨chatId, "/done gym"⟩⟩, ⟨i2, some ⟨chatId, "/reset"⟩⟩,
          ⟨i3, some ⟨chatId, "/reset"⟩⟩] now2).done_map "gym"
      ≠ some (compute_target_date now) := by
  set td := compute_target_date now with htd
  set st0 := initLoopState last_update_id cfg done_map with hst0
  set st1 := processUpdate chatId td st0 ⟨i1, some ⟨chatId, "/done gym"⟩⟩ with hst1
  set st2 := processUpdate chatId td st1 ⟨i2, some ⟨chatId, "/reset"⟩⟩ with hst2
  set st3 := processUpdate chatId td st2 ⟨i3, some ⟨chatId, "/reset"⟩⟩ with hst3
  have hloop : loopPhase chatId td st0
      [⟨i1, some ⟨chatId, "/done gym"⟩⟩, ⟨i2, some ⟨chatId, "/reset"⟩⟩,
        ⟨i3, some ⟨chatId, "/reset"⟩⟩] = st3 := rfl
  have hra1 : st1.reset_all = false := by
    rw [hst1, processUpdate_done_gym_eq, (cmdDone_reset_flags _ _ _).1]
    rfl
  have hra3 : st3.reset_all = false := by
    rw [hst3, processUpdate_reset_eq, hst2, processUpdate_reset_eq]
    exact hra1
  have hrt3 : st3.reset_today = true := by
    rw [hst3, processUpdate_reset_eq]
  have hreset : resetPhase td st3
      = { st3 with
          done_map := st3.done_map.filter (fun p => p.2 != td)
          state_changed := true
          responded := true
          sent := st3.sent ++ ["Reset completion for " ++ toString td ++ "."] } := by
    simp [resetPhase, hra3, hrt3]
  have hrun : runMain chatId last_update_id done_map cfg now
      [⟨i1, some ⟨chatId, "/done gym"⟩⟩, ⟨i2, some ⟨chatId, "/reset"⟩⟩,
        ⟨i3, some ⟨chatId, "/reset"⟩⟩] now2
      = finalPhase td (resetPhase td st3) now2 := by
    rw [runMain, hloop]
  have hdone : (runMain chatId last_update_id done_map cfg now
      [⟨i1, some ⟨chatId, "/done gym"⟩⟩, ⟨i2, some ⟨chatId, "/reset"⟩⟩,
        ⟨i3, some ⟨chatId, "/reset"⟩⟩] now2).done_map
      = st3.done_map.filter (fun p => p.2 != td) := by
    rw [hrun, (finalPhase_state_fields td _ now2).2, hreset]
  refine ⟨by rw [hdone, hloop], ?_⟩
  rw [hdone]
  exact pyDictGet_filter_value_ne st3.done_map "gym" td

end TaskNagger
